import Mathlib

/-! # mimir-cardinality-exporter: client and collector

A shallow embedding of `client.go` and `main.go`.

* Go strings are Lean `String`s; the separators and names the program compares against are
  ASCII, so cutting and comparing by character agrees with Go's byte-wise operations.
* Go maps (`http.Header`, `url.Values`) are lists of entries with distinct keys. Where the
  program ranges over a map the list order stands for the order the runtime happened to pick,
  so a statement over all lists covers every iteration order.
* A Go function that may panic returns `Exec`.
* The standard-library and Prometheus operations the program calls (`strings.Cut`,
  `http.Header.Add/Set`, `url.Values.Add/Encode`, `encoding/json` decoding into the response
  structs, `float64(int)`, `MustNewConstMetric`) are embedded by their documented behaviour.
-/

set_option autoImplicit false

namespace MimirCardinality

/-! ## Execution results -/

/-- Outcome of running a Go function: it returns a value, or it panics. -/
inductive Exec (α : Type) where
  | done (a : α)
  | panic (msg : String)
  deriving Repr, DecidableEq

/-! ## `map[string][]string` -/

/-- Entries of a `map[string][]string`. -/
abbrev StringMap := List (String × List String)

/-- Map index `m[key]`: the stored slice, or the nil slice when the key is absent. -/
def StringMap.lookup : StringMap → String → List String
  | [], _ => []
  | (k, vs) :: rest, key => if k = key then vs else StringMap.lookup rest key

/-- Map assignment `m[key] = vs`. -/
def StringMap.store : StringMap → String → List String → StringMap
  | [], key, vs => [(key, vs)]
  | (k, old) :: rest, key, vs =>
    if k = key then (k, vs) :: rest else (k, old) :: StringMap.store rest key vs

/-! ## `strings.Cut` -/

/-- Go `strings.Cut(s, sep)` for a one-character separator: the text before and after the first
occurrence of `sep` and `true`, or `(s, "", false)` when `sep` does not occur. -/
def stringsCut (s : String) (sep : Char) : String × String × Bool :=
  match s.toList.span (fun c => c != sep) with
  | (_, []) => (s, "", false)
  | (before, _ :: after) => (String.mk before, String.mk after, true)

/-! ## `net/http.Header` -/

/-- Go `httpguts`/`textproto` token bytes: the characters allowed in a header field name. -/
def validHeaderFieldByte (c : Char) : Bool :=
  c.isAlphanum || "!#$%&\x27*+-.^_\x60|~".toList.contains c

/-- Upper-case the first letter and every letter after a dash, lower-case the others. -/
def canonicalLetters : Bool → List Char → List Char
  | _, [] => []
  | upper, c :: cs =>
    let c1 := if upper then c.toUpper else c.toLower
    c1 :: canonicalLetters (c1 == '-') cs

/-- Go `textproto.CanonicalMIMEHeaderKey`: a key holding a character that is not a token
character is returned unchanged, any other key is put in canonical case. -/
def CanonicalMIMEHeaderKey (s : String) : String :=
  if s.toList.all validHeaderFieldByte then String.mk (canonicalLetters true s.toList) else s

/-- Go `http.Header`. -/
abbrev Header := StringMap

/-- Go `Header.Add`: append `value` to the values stored under the canonical key. -/
def Header.Add (h : Header) (key value : String) : Header :=
  let k := CanonicalMIMEHeaderKey key
  StringMap.store h k (StringMap.lookup h k ++ [value])

/-- Go `Header.Set`: replace the values stored under the canonical key by the single `value`. -/
def Header.Set (h : Header) (key value : String) : Header :=
  StringMap.store h (CanonicalMIMEHeaderKey key) [value]

/-- Go `Header.Values`: all values stored under the canonical key. -/
def Header.Values (h : Header) (key : String) : List String :=
  StringMap.lookup h (CanonicalMIMEHeaderKey key)

/-- Go `Header.Get`: the first value stored under the canonical key, or `""`. -/
def Header.Get (h : Header) (key : String) : String :=
  (Header.Values h key).headD ""

/-! ## `headerVar` (client.go 44-62) -/

/-- The flag value `headerVar`: an `http.Header` that may still be the nil map. -/
abbrev headerVar := Option Header

/-- The `http.Header(*h)` conversion; the nil map has no entries. -/
def headerVar.toHeader (h : headerVar) : Header := h.getD []

/-- `headerVar.Set` (client.go 46-58): the updated receiver and the returned error. -/
def headerVar.Set (h : headerVar) (value : String) : headerVar × Option String :=
  let h : Header := match h with
    | none => []
    | some m => m
  match stringsCut value '=' with
  | (_, _, false) => (some h, some "header must be specified as name=value")
  | (name, value, true) => (some (Header.Add h name value), none)

/-! ## Requests and the decorating round tripper (client.go 150-170) -/

/-- An `http.Request` as far as the program touches it. `RawQuery` is the query string as
the ordered sequence of its `key=value` parameters (percent-escaping left out). -/
structure Request where
  Method : String
  URL : String
  RawQuery : List (String × String)
  Header : Header
  deriving Repr, DecidableEq

/-- A JSON value. A number is `int n` when its literal is an optional minus sign followed by
digits, and `nonInt` when the literal has a fraction or an exponent. -/
inductive JSON where
  | null
  | bool (b : Bool)
  | int (n : Int)
  | nonInt
  | str (s : String)
  | arr (items : List JSON)
  | obj (members : List (String × JSON))

/-- The body of an HTTP response as `Decoder.Decode` reads it. `Decode` reads one JSON value
from the start of the text and nothing after it: the body is `malformed` when no JSON value
can be read there (empty, truncated or syntactically wrong text), and `json v rest` when it
starts with the JSON value `v` and goes on with the text `rest`, which is never looked at. -/
inductive Body where
  | malformed
  | json (v : JSON) (rest : String)

/-- UTF-8 encoding of one character, as byte values. -/
def utf8Bytes (c : Char) : List Nat :=
  let n := c.toNat
  if n < 0x80 then [n]
  else if n < 0x800 then [0xC0 + n / 64, 0x80 + n % 64]
  else if n < 0x10000 then [0xE0 + n / 4096, 0x80 + n / 64 % 64, 0x80 + n % 64]
  else [0xF0 + n / 262144, 0x80 + n / 4096 % 64, 0x80 + n / 64 % 64, 0x80 + n % 64]

/-- The base64 standard alphabet. -/
def base64Digit (n : Nat) : Char :=
  "ABCDEFGHIJKLMNOPQRSTUVWXYZabcdefghijklmnopqrstuvwxyz0123456789+/".toList.getD n 'A'

/-- Go `base64.StdEncoding.EncodeToString` on a byte sequence. -/
def base64Encode : List Nat → List Char
  | a :: b :: c :: rest =>
    let n := a * 65536 + b * 256 + c
    base64Digit (n / 262144) :: base64Digit (n / 4096 % 64) :: base64Digit (n / 64 % 64) ::
      base64Digit (n % 64) :: base64Encode rest
  | [a, b] =>
    let n := a * 65536 + b * 256
    [base64Digit (n / 262144), base64Digit (n / 4096 % 64), base64Digit (n / 64 % 64), '=']
  | [a] =>
    let n := a * 65536
    [base64Digit (n / 262144), base64Digit (n / 4096 % 64), '=', '=']
  | [] => []

/-- Go `http.basicAuth`: base64 of `username:password`. -/
def basicAuth (username password : String) : String :=
  String.mk (base64Encode ((username ++ ":" ++ password).toList.flatMap utf8Bytes))

/-- Go `Request.SetBasicAuth`. -/
def Request.SetBasicAuth (req : Request) (username password : String) : Request :=
  { req with Header := Header.Set req.Header "Authorization" ("Basic " ++ basicAuth username password) }

/-- The struct `basicAuthRoundTripper`; `next` is the wrapped transport, which fails with an
error (connection, DNS, TLS, deadline) or delivers a response body. -/
structure basicAuthRoundTripper where
  next : Request → Except String Body
  user : String
  password : String
  headers : Header

/-- The inner loop of `RoundTrip` (client.go 163-165): `req.Header.Set(key, value)` for each
value in turn. -/
def setEach (hdr : Header) (key : String) : List String → Header
  | [] => hdr
  | value :: values => setEach (Header.Set hdr key value) key values

/-- The outer loop of `RoundTrip` (client.go 162-166) over the entries of `rt.headers`. -/
def setAll (hdr : Header) : List (String × List String) → Header
  | [] => hdr
  | (key, values) :: rest => setAll (setEach hdr key values) rest

/-- The request `RoundTrip` has built when it reaches `rt.next.RoundTrip(req)`
(client.go 157-167). -/
def basicAuthRoundTripper.outbound (rt : basicAuthRoundTripper) (req : Request) : Request :=
  let req := if rt.user ≠ "" ∨ rt.password ≠ "" then req.SetBasicAuth rt.user rt.password else req
  if rt.headers.length > 0 then { req with Header := setAll req.Header rt.headers } else req

/-- `basicAuthRoundTripper.RoundTrip` (client.go 156-170). -/
def basicAuthRoundTripper.RoundTrip (rt : basicAuthRoundTripper) (req : Request) :
    Except String Body :=
  rt.next (rt.outbound req)

/-- Whether a header carries basic-auth credentials: its `Authorization` value starts with the
`Basic ` scheme. -/
def hasBasicAuth (h : Header) : Bool :=
  "Basic ".toList.isPrefixOf (Header.Get h "Authorization").toList

/-! ## `net/url.Values` -/

/-- Go `url.Values`. -/
abbrev Values := StringMap

/-- Go `Values.Add`: append `value` to the values stored under `key` (no canonicalisation). -/
def Values.Add (v : Values) (key value : String) : Values :=
  StringMap.store v key (StringMap.lookup v key ++ [value])

/-- Go `URL.Query`: the parameters of the query string grouped by key. -/
def URLQuery (raw : List (String × String)) : Values :=
  raw.foldl (fun q p => Values.Add q p.1 p.2) []

/-- Go `Values.Encode`: the parameters sorted by key, the values of one key in stored order. -/
def Values.Encode (v : Values) : List (String × String) :=
  ((v.map Prod.fst).insertionSort (fun a b => a ≤ b)).flatMap
    (fun k => (StringMap.lookup v k).map (fun x => (k, x)))

/-! ## Response types (client.go 16-42) -/

/-- The struct `LabelValuesCardinality`. -/
structure LabelValuesCardinality where
  LabelValue : String
  SeriesCount : Int
  deriving Repr, DecidableEq

/-- The struct `LabelValuesLabel`. -/
structure LabelValuesLabel where
  LabelName : String
  LabelValuesCount : Int
  SeriesCount : Int
  Cardinality : List LabelValuesCardinality
  deriving Repr, DecidableEq

/-- The struct `LabelValuesResponse`. -/
structure LabelValuesResponse where
  SeriesCountTotal : Int
  Labels : List LabelValuesLabel
  deriving Repr, DecidableEq

/-- The struct `LabelNamesCardinality`. -/
structure LabelNamesCardinality where
  LabelName : String
  LabelValuesCount : Int
  deriving Repr, DecidableEq

/-- The struct `LabelNamesResponse`. -/
structure LabelNamesResponse where
  LabelValuesCountTotal : Int
  LabelNamesCount : Int
  Cardinality : List LabelNamesCardinality
  deriving Repr, DecidableEq

/-! ## `encoding/json` decoding into the response types

`Decoder.Decode` decodes into the value the target already holds: a member that is absent
leaves its field alone, `null` leaves a number, string or struct alone and sets a slice to
nil, a member whose name matches no field is skipped, and a value of the wrong JSON type
leaves the field alone and records an error; decoding goes on and the first recorded error is
returned. A repeated member is decoded over what the earlier one left. For a slice that goes
element by element over the backing array: an array shorter than the slice cuts the slice
but leaves the later elements in the array, and a longer array afterwards is decoded over
them. The types `Slice`, `StoredLabel`, `StoredResponse` and `StoredNames` keep those
elements while decoding; the decoded result is what the program can see of them.
-/

/-- Go `encoding/json` name folding: member names match field names up to Unicode simple case
folding, under which the ASCII letters have, besides their other case, only the Kelvin sign
(for `k`) and the long s (for `s`) as equivalents. -/
def foldRune (c : Char) : Char :=
  if c = Char.ofNat 0x212A then 'k' else if c = Char.ofNat 0x17F then 's' else c.toLower

/-- The folded form of a member name. -/
def foldName (s : String) : String := String.mk (s.toList.map foldRune)

/-- Keep the first recorded error. -/
def firstError (e1 e2 : Option String) : Option String :=
  match e1 with
  | some e => some e
  | none => e2

/-- A Go slice in memory: its elements, and the elements its backing array still holds
beyond its length from an earlier, longer use. The nil slice has neither. -/
structure Slice (α : Type) where
  elems : List α
  spare : List α

/-- A `LabelValuesLabel` in memory. -/
structure StoredLabel where
  LabelName : String
  LabelValuesCount : Int
  SeriesCount : Int
  Cardinality : Slice LabelValuesCardinality

/-- A `LabelValuesResponse` in memory. -/
structure StoredResponse where
  SeriesCountTotal : Int
  Labels : Slice StoredLabel

/-- A `LabelNamesResponse` in memory. -/
structure StoredNames where
  LabelValuesCountTotal : Int
  LabelNamesCount : Int
  Cardinality : Slice LabelNamesCardinality

/-- The `LabelValuesLabel` the program sees. -/
def StoredLabel.value (s : StoredLabel) : LabelValuesLabel :=
  ⟨s.LabelName, s.LabelValuesCount, s.SeriesCount, s.Cardinality.elems⟩

/-- The `LabelValuesResponse` the program sees. -/
def StoredResponse.value (s : StoredResponse) : LabelValuesResponse :=
  ⟨s.SeriesCountTotal, s.Labels.elems.map StoredLabel.value⟩

/-- The `LabelNamesResponse` the program sees. -/
def StoredNames.value (s : StoredNames) : LabelNamesResponse :=
  ⟨s.LabelValuesCountTotal, s.LabelNamesCount, s.Cardinality.elems⟩

/-- Decode a JSON value into a Go `int` (64-bit). -/
def decodeInt (cur : Int) : JSON → Int × Option String
  | .null => (cur, none)
  | .int n =>
    if -(2 : Int) ^ 63 ≤ n ∧ n < (2 : Int) ^ 63 then (n, none)
    else (cur, some "json: cannot unmarshal number into Go value of type int")
  | _ => (cur, some "json: cannot unmarshal value into Go value of type int")

/-- Decode a JSON value into a Go `string`. -/
def decodeString (cur : String) : JSON → String × Option String
  | .null => (cur, none)
  | .str s => (s, none)
  | _ => (cur, some "json: cannot unmarshal value into Go value of type string")

/-- Decode the items of a JSON array over the elements of a backing array, item `i` over
element `i`, and over the zero value where the array holds nothing yet. -/
def decodeItems {α : Type} (zero : α) (dec : α → JSON → α × Option String) :
    List α → List JSON → List α × Option String
  | _, [] => ([], none)
  | cur, j :: js =>
    let x := dec (cur.headD zero) j
    let xs := decodeItems zero dec cur.tail js
    (x.1 :: xs.1, firstError x.2 xs.2)

/-- Decode a JSON value into a Go slice: `null` gives the nil slice, the empty array a
fresh empty slice, and a longer array is decoded over the backing array, whose elements
beyond the array's length stay behind. -/
def decodeSlice {α : Type} (zero : α) (dec : α → JSON → α × Option String) (cur : Slice α) :
    JSON → Slice α × Option String
  | .null => (⟨[], []⟩, none)
  | .arr [] => (⟨[], []⟩, none)
  | .arr (j :: js) =>
    let r := decodeItems zero dec (cur.elems ++ cur.spare) (j :: js)
    (⟨r.1, (cur.elems ++ cur.spare).drop (j :: js).length⟩, r.2)
  | _ => (cur, some "json: cannot unmarshal value into Go value of slice type")

/-- Decode the members of a JSON object into a struct, one after the other; `field` decodes
one member into the struct. -/
def decodeMembers {α : Type} (field : α → String → JSON → α × Option String) :
    α × Option String → List (String × JSON) → α × Option String
  | acc, [] => acc
  | acc, (k, v) :: rest =>
    let r := field acc.1 (foldName k) v
    decodeMembers field (r.1, firstError acc.2 r.2) rest

/-- Decode a JSON value into a struct. -/
def decodeStruct {α : Type} (field : α → String → JSON → α × Option String) (cur : α) :
    JSON → α × Option String
  | .null => (cur, none)
  | .obj members => decodeMembers field (cur, none) members
  | _ => (cur, some "json: cannot unmarshal value into Go value of struct type")

/-- One member of a `LabelValuesCardinality` object (tags `label_value`, `series_count`). -/
def LabelValuesCardinality.field (cur : LabelValuesCardinality) (name : String) (v : JSON) :
    LabelValuesCardinality × Option String :=
  if name = "label_value" then
    let r := decodeString cur.LabelValue v
    ({ cur with LabelValue := r.1 }, r.2)
  else if name = "series_count" then
    let r := decodeInt cur.SeriesCount v
    ({ cur with SeriesCount := r.1 }, r.2)
  else (cur, none)

/-- One member of a `LabelValuesLabel` object (tags `label_name`, `label_values_count`,
`series_count`, `cardinality`). -/
def StoredLabel.field (cur : StoredLabel) (name : String) (v : JSON) :
    StoredLabel × Option String :=
  if name = "label_name" then
    let r := decodeString cur.LabelName v
    ({ cur with LabelName := r.1 }, r.2)
  else if name = "label_values_count" then
    let r := decodeInt cur.LabelValuesCount v
    ({ cur with LabelValuesCount := r.1 }, r.2)
  else if name = "series_count" then
    let r := decodeInt cur.SeriesCount v
    ({ cur with SeriesCount := r.1 }, r.2)
  else if name = "cardinality" then
    let r := decodeSlice ⟨"", 0⟩ (decodeStruct LabelValuesCardinality.field) cur.Cardinality v
    ({ cur with Cardinality := r.1 }, r.2)
  else (cur, none)

/-- One member of a `LabelValuesResponse` object (tags `series_count_total`, `labels`). -/
def StoredResponse.field (cur : StoredResponse) (name : String) (v : JSON) :
    StoredResponse × Option String :=
  if name = "series_count_total" then
    let r := decodeInt cur.SeriesCountTotal v
    ({ cur with SeriesCountTotal := r.1 }, r.2)
  else if name = "labels" then
    let r := decodeSlice ⟨"", 0, 0, ⟨[], []⟩⟩ (decodeStruct StoredLabel.field) cur.Labels v
    ({ cur with Labels := r.1 }, r.2)
  else (cur, none)

/-- One member of a `LabelNamesCardinality` object (tags `label_name`,
`label_values_count`). -/
def LabelNamesCardinality.field (cur : LabelNamesCardinality) (name : String) (v : JSON) :
    LabelNamesCardinality × Option String :=
  if name = "label_name" then
    let r := decodeString cur.LabelName v
    ({ cur with LabelName := r.1 }, r.2)
  else if name = "label_values_count" then
    let r := decodeInt cur.LabelValuesCount v
    ({ cur with LabelValuesCount := r.1 }, r.2)
  else (cur, none)

/-- One member of a `LabelNamesResponse` object (tags `label_values_count_total`,
`label_names_count`, `cardinality`). -/
def StoredNames.field (cur : StoredNames) (name : String) (v : JSON) :
    StoredNames × Option String :=
  if name = "label_values_count_total" then
    let r := decodeInt cur.LabelValuesCountTotal v
    ({ cur with LabelValuesCountTotal := r.1 }, r.2)
  else if name = "label_names_count" then
    let r := decodeInt cur.LabelNamesCount v
    ({ cur with LabelNamesCount := r.1 }, r.2)
  else if name = "cardinality" then
    let r := decodeSlice ⟨"", 0⟩ (decodeStruct LabelNamesCardinality.field) cur.Cardinality v
    ({ cur with Cardinality := r.1 }, r.2)
  else (cur, none)

/-- The lines `var result LabelValuesResponse; err = json.NewDecoder(resp.Body).Decode(&result)`
(client.go 120-121): the decoded result and the error. -/
def decodeLabelValuesResponse : Body → LabelValuesResponse × Option String
  | .malformed => (⟨0, []⟩, some "invalid character looking for beginning of value")
  | .json v _ =>
    let r := decodeStruct StoredResponse.field ⟨0, ⟨[], []⟩⟩ v
    (r.1.value, r.2)

/-- The lines `var result LabelNamesResponse; err = json.NewDecoder(resp.Body).Decode(&result)`
(client.go 145-146). -/
def decodeLabelNamesResponse : Body → LabelNamesResponse × Option String
  | .malformed => (⟨0, 0, []⟩, some "invalid character looking for beginning of value")
  | .json v _ =>
    let r := decodeStruct StoredNames.field ⟨0, 0, ⟨[], []⟩⟩ v
    (r.1.value, r.2)

/-! ## The client (client.go 64-148) -/

/-- The struct `ClientConfig`. -/
structure ClientConfig where
  Address : String
  User : String
  Password : String
  Headers : headerVar

/-- The struct `cardinalityClient`; `client` is the `http.Client`, given by its transport. -/
structure cardinalityClient where
  address : String
  client : basicAuthRoundTripper

/-- `NewCardinalityClient` (client.go 78-88); `rt` is the transport to wrap. -/
def NewCardinalityClient (cfg : ClientConfig) (rt : Request → Except String Body) :
    cardinalityClient :=
  { address := cfg.Address
    client :=
      { user := cfg.User
        password := cfg.Password
        next := rt
        headers := headerVar.toHeader cfg.Headers } }

/-- The URL functions of the standard library the client calls, taken as given:
`url.JoinPath(base, elem)` and `http.NewRequestWithContext(ctx, method, url, nil)`. Both fail
on text that is not a URL. -/
structure URLLib where
  JoinPath : String → String → Except String String
  NewRequest : String → String → Except String Request

/-- Go `http.Client.Do` with the client's transport: one round trip (redirects are not
followed in this embedding). Its error covers every failure to obtain a response, the
elapsed deadline of the request context included. -/
def cardinalityClient.Do (c : cardinalityClient) (req : Request) : Except String Body :=
  c.client.RoundTrip req

/-- The request `LabelValuesCardinality` builds (client.go 96-113). -/
def cardinalityClient.labelValuesRequest (lib : URLLib) (c : cardinalityClient)
    (labels : List String) (selector : String) : Exec Request :=
  match lib.JoinPath c.address "/prometheus/api/v1/cardinality/label_values" with
  | .error err => .panic err
  | .ok url =>
    match lib.NewRequest "GET" url with
    | .error err => .panic err
    | .ok req =>
      let q := URLQuery req.RawQuery
      let q := labels.foldl (fun q v => Values.Add q "label_names[]" v) q
      let q := if selector ≠ "" then Values.Add q "selector" selector else q
      .done { req with RawQuery := Values.Encode q }

/-- `cardinalityClient.LabelValuesCardinality` (client.go 95-123): the returned pair of result
and error, or a panic. -/
def cardinalityClient.LabelValuesCardinality (lib : URLLib) (c : cardinalityClient)
    (labels : List String) (selector : String) : Exec (LabelValuesResponse × Option String) :=
  match c.labelValuesRequest lib labels selector with
  | .panic err => .panic err
  | .done req =>
    match c.Do req with
    | .error err => .panic err
    | .ok body => .done (decodeLabelValuesResponse body)

/-- The request `LabelNamesCardinality` builds (client.go 126-138). -/
def cardinalityClient.labelNamesRequest (lib : URLLib) (c : cardinalityClient)
    (selector : String) : Exec Request :=
  match lib.JoinPath c.address "/prometheus/api/v1/cardinality/label_names" with
  | .error err => .panic err
  | .ok url =>
    match lib.NewRequest "GET" url with
    | .error err => .panic err
    | .ok req =>
      let q := URLQuery req.RawQuery
      let q := Values.Add q "selector" selector
      .done { req with RawQuery := Values.Encode q }

/-- `cardinalityClient.LabelNamesCardinality` (client.go 125-148). -/
def cardinalityClient.LabelNamesCardinality (lib : URLLib) (c : cardinalityClient)
    (selector : String) : Exec (LabelNamesResponse × Option String) :=
  match c.labelNamesRequest lib selector with
  | .panic err => .panic err
  | .done req =>
    match c.Do req with
    | .error err => .panic err
    | .ok body => .done (decodeLabelNamesResponse body)

/-! ## The collector (main.go 55-117) -/

/-- Number of low bits a magnitude loses when it is fitted into the 53-bit significand of a
`float64`. -/
def droppedBits : Nat → Nat → Nat
  | 0, _ => 0
  | fuel + 1, m => if m < 2 ^ 53 then 0 else 1 + droppedBits fuel (m / 2)

/-- The magnitude `m` rounded to the nearest `float64`, ties to even. -/
def roundMagnitude (m : Nat) : Nat :=
  let e := droppedBits m m
  let q := m / 2 ^ e
  let r := m % 2 ^ e
  let up := 2 * r > 2 ^ e ∨ (2 * r = 2 ^ e ∧ q % 2 = 1)
  (if up then q + 1 else q) * 2 ^ e

/-- Go `float64(n)` for an `int`: the number the resulting `float64` denotes (always an
integer; an `int` is far below the range where `float64` overflows). -/
def float64 (n : Int) : Int :=
  if n < 0 then -(roundMagnitude n.natAbs : Int) else (roundMagnitude n.natAbs : Int)

/-- A `prometheus.Desc`. -/
structure Desc where
  fqName : String
  help : String
  variableLabels : List String
  constLabels : List (String × String)
  deriving Repr, DecidableEq

/-- Go `prometheus.NewDesc`. -/
def NewDesc (fqName help : String) (variableLabels : List String)
    (constLabels : List (String × String)) : Desc :=
  { fqName := fqName, help := help, variableLabels := variableLabels, constLabels := constLabels }

/-- A `prometheus.ValueType`. -/
inductive ValueType where
  | CounterValue
  | GaugeValue
  | UntypedValue
  deriving Repr, DecidableEq

/-- A constant metric, the sample sent on the channel; `value` is the number its `float64`
denotes. -/
structure Metric where
  desc : Desc
  valueType : ValueType
  value : Int
  labelValues : List String
  deriving Repr, DecidableEq

/-- Go `prometheus.MustNewConstMetric`: panics unless there is one label value per variable
label of the descriptor. (It also panics on a descriptor with an invalid metric or label
name; `main` exits when `Register` refuses such a collector, so `Collect` never runs with
one. Label values come out of the JSON decoder, which yields valid UTF-8 only.) -/
def MustNewConstMetric (desc : Desc) (valueType : ValueType) (value : Int)
    (labelValues : List String) : Exec Metric :=
  if labelValues.length = desc.variableLabels.length then
    .done { desc := desc, valueType := valueType, value := value, labelValues := labelValues }
  else .panic "inconsistent label cardinality"

/-- The struct `cardinalityCollector`. -/
structure cardinalityCollector where
  client : cardinalityClient
  totalDesc : Desc
  desc : Desc
  dimension : String
  selector : String
  timeout : Nat

/-- `newCardinalityCollector` (main.go 66-85). -/
def newCardinalityCollector (client : cardinalityClient) (dimension selector : String)
    (timeout : Nat) : cardinalityCollector :=
  let constLabels := [("dimension", dimension)]
  { client := client
    totalDesc := NewDesc "grafana_mimir_top_cardinality_total"
      "Total number of time series in Mimir" [] constLabels
    desc := NewDesc "grafana_mimir_top_cardinality" "Cardinality of time series in Mimir"
      ["exported_" ++ dimension] constLabels
    dimension := dimension
    selector := selector
    timeout := timeout }

/-- `cardinalityCollector.Describe` (main.go 89-92): the descriptors sent on the channel. -/
def cardinalityCollector.Describe (c : cardinalityCollector) : List Desc :=
  [c.totalDesc, c.desc]

/-- The inner loop of `Collect` (main.go 112-114): the metrics sent for one entry. -/
def cardinalityCollector.collectValues (c : cardinalityCollector) :
    List LabelValuesCardinality → Exec (List Metric)
  | [] => .done []
  | lvc :: rest =>
    match MustNewConstMetric c.desc .GaugeValue (float64 lvc.SeriesCount) [lvc.LabelValue] with
    | .panic err => .panic err
    | .done m =>
      match cardinalityCollector.collectValues c rest with
      | .panic err => .panic err
      | .done ms => .done (m :: ms)

/-- The outer loop of `Collect` (main.go 106-115): the metrics sent for the entries. -/
def cardinalityCollector.collectLabels (c : cardinalityCollector) :
    List LabelValuesLabel → Exec (List Metric)
  | [] => .done []
  | lvl :: rest =>
    if lvl.LabelName ≠ c.dimension then cardinalityCollector.collectLabels c rest
    else
      match c.collectValues lvl.Cardinality with
      | .panic err => .panic err
      | .done ms =>
        match cardinalityCollector.collectLabels c rest with
        | .panic err => .panic err
        | .done more => .done (ms ++ more)

/-- `cardinalityCollector.Collect` (main.go 94-117): the metrics sent on the channel, in
order, when it returns; a panic ends the process. -/
def cardinalityCollector.Collect (lib : URLLib) (c : cardinalityCollector) :
    Exec (List Metric) :=
  match c.client.LabelValuesCardinality lib [c.dimension] c.selector with
  | .panic err => .panic err
  | .done (_, some _) => .done []
  | .done (response, none) =>
    match MustNewConstMetric c.totalDesc .GaugeValue (float64 response.SeriesCountTotal) [] with
    | .panic err => .panic err
    | .done total =>
      match c.collectLabels response.Labels with
      | .panic err => .panic err
      | .done ms => .done (total :: ms)

/-! ## Descriptions used in the statements -/

/-- The per-value sample `Collect` sends for one `(LabelValue, SeriesCount)` pair. -/
def valueSample (dimension : String) (lvc : LabelValuesCardinality) : Metric :=
  { desc := NewDesc "grafana_mimir_top_cardinality" "Cardinality of time series in Mimir"
      ["exported_" ++ dimension] [("dimension", dimension)]
    valueType := .GaugeValue
    value := float64 lvc.SeriesCount
    labelValues := [lvc.LabelValue] }

/-- The total-count sample `Collect` sends for a response. -/
def totalSample (dimension : String) (response : LabelValuesResponse) : Metric :=
  { desc := NewDesc "grafana_mimir_top_cardinality_total" "Total number of time series in Mimir"
      [] [("dimension", dimension)]
    valueType := .GaugeValue
    value := float64 response.SeriesCountTotal
    labelValues := [] }

/-- The entries of a response that `Collect` does not skip. -/
def matching (dimension : String) (labels : List LabelValuesLabel) : List LabelValuesLabel :=
  labels.filter (fun lvl => lvl.LabelName = dimension)

/-! ## Concrete inputs -/

/-- A URL library under which every address is a URL without a query string. -/
def plainURLLib : URLLib :=
  { JoinPath := fun base elem => .ok (base ++ elem)
    NewRequest := fun method url => .ok ⟨method, url, [], []⟩ }

/-- A transport that answers every request with `body`. -/
def serving (body : Body) : Request → Except String Body := fun _ => .ok body

/-- A transport on which every request fails, as when the deadline elapses first. -/
def failing : Request → Except String Body := fun _ => .error "context deadline exceeded"

/-- A client of `http://mimir` without credentials or static headers. -/
def plainClient (rt : Request → Except String Body) : cardinalityClient :=
  NewCardinalityClient ⟨"http://mimir", "", "", none⟩ rt

/-- The response body of the spec's scenario: total 100, `job` values `a`: 60 and `b`: 40. -/
def jobBody : Body :=
  .json (.obj [("series_count_total", .int 100),
    ("labels", .arr [.obj [("label_name", .str "job"), ("label_values_count", .int 2),
      ("series_count", .int 100),
      ("cardinality", .arr [.obj [("label_value", .str "a"), ("series_count", .int 60)],
        .obj [("label_value", .str "b"), ("series_count", .int 40)]])]])]) ""

/-- The response the scenario body decodes to. -/
def jobResponse : LabelValuesResponse :=
  ⟨100, [⟨"job", 2, 100, [⟨"a", 60⟩, ⟨"b", 40⟩]⟩]⟩

/-- A body whose `labels` hold an entry for another label name next to the `job` entry. -/
def mixedBody : Body :=
  .json (.obj [("series_count_total", .int 7),
    ("labels", .arr [.obj [("label_name", .str "instance"),
        ("cardinality", .arr [.obj [("label_value", .str "x"), ("series_count", .int 4)]])],
      .obj [("label_name", .str "job"),
        ("cardinality", .arr [.obj [("label_value", .str "a"), ("series_count", .int 3)]])]])])
    ""

/-- The body `mixedBody` without the entry for the other label name. -/
def mixedBodyFiltered : Body :=
  .json (.obj [("series_count_total", .int 7),
    ("labels", .arr [.obj [("label_name", .str "job"),
        ("cardinality", .arr [.obj [("label_value", .str "a"), ("series_count", .int 3)]])]])])
    ""

/-- A body whose total is `2 ^ 53 + 1`. -/
def hugeTotalBody : Body :=
  .json (.obj [("series_count_total", .int 9007199254740993), ("labels", .arr [])]) ""

/-- A body in which the `job` value `a` has `2 ^ 53 + 1` series. -/
def hugeValueBody : Body :=
  .json (.obj [("series_count_total", .int 5),
    ("labels", .arr [.obj [("label_name", .str "job"),
      ("cardinality", .arr [.obj [("label_value", .str "a"),
        ("series_count", .int 9007199254740993)]])]])]) ""

/-- A body that is a JSON object without a `series_count_total` member. -/
def noTotalBody : Body := .json (.obj [("labels", .arr [])]) ""

/-- A body that is the empty JSON object. -/
def emptyObjectBody : Body := .json (.obj []) ""

/-- A body that is not JSON as a whole: the empty object followed by other text. -/
def trailingTextBody : Body := .json (.obj []) " garbage"

/-- A body with a type mismatch three levels down: a `series_count` that is a string. -/
def nestedMismatchBody : Body :=
  .json (.obj [("series_count_total", .int 1),
    ("labels", .arr [.obj [("label_name", .str "job"),
      ("cardinality", .arr [.obj [("label_value", .str "a"),
        ("series_count", .str "60")]])]])]) ""

/-- A body whose `cardinality` member comes three times, with two items, one and two. -/
def repeatedMemberBody : Body :=
  .json (.obj [("labels", .arr [.obj [
    ("cardinality", .arr [.obj [("label_value", .str "a")], .obj [("label_value", .str "b")]]),
    ("cardinality", .arr [.obj []]),
    ("cardinality", .arr [.obj [], .obj []])]])]) ""

/-- Whether a JSON object has a member of the given name. -/
def hasMember (name : String) : JSON → Bool
  | .obj members => members.any (fun m => m.1 = name)
  | _ => false

/-- The JSON values a Go `int` field accepts: `null` and integer literals within 64 bits. -/
def fitsInt : JSON → Bool
  | .null => true
  | .int n => decide (-(2 : Int) ^ 63 ≤ n ∧ n < (2 : Int) ^ 63)
  | _ => false

/-- The JSON values a Go `string` field accepts: `null` and strings. -/
def fitsString : JSON → Bool
  | .null => true
  | .str _ => true
  | _ => false

/-- The JSON values a Go slice field accepts: `null`, and arrays whose items all pass
`item`. -/
def arrayFits (item : JSON → Bool) : JSON → Bool
  | .null => true
  | .arr items => items.all item
  | _ => false

/-- The JSON values a Go struct accepts: `null`, and objects whose members all pass
`member`, asked with the folded member name. -/
def objectFits (member : String → JSON → Bool) : JSON → Bool
  | .null => true
  | .obj members => members.all (fun m => member (foldName m.1) m.2)
  | _ => false

/-- What a member of a `cardinality` item may hold: a string under `label_value`, an integer
under `series_count`, anything under another name. -/
def cardinalityMemberFits (name : String) (v : JSON) : Bool :=
  if name = "label_value" then fitsString v
  else if name = "series_count" then fitsInt v
  else true

/-- What a member of a `labels` item may hold. -/
def labelMemberFits (name : String) (v : JSON) : Bool :=
  if name = "label_name" then fitsString v
  else if name = "label_values_count" then fitsInt v
  else if name = "series_count" then fitsInt v
  else if name = "cardinality" then arrayFits (objectFits cardinalityMemberFits) v
  else true

/-- What a member of the response object may hold. -/
def responseMemberFits (name : String) (v : JSON) : Bool :=
  if name = "series_count_total" then fitsInt v
  else if name = "labels" then arrayFits (objectFits labelMemberFits) v
  else true

/-- The JSON values in which every member that names a field of the `LabelValuesResponse`
schema, at any depth, holds a value of that field's JSON type (`null` counts for every
type). Missing members and members of other names are allowed. -/
def fitsLabelValuesResponse (v : JSON) : Bool := objectFits responseMemberFits v

/-- The URL functions at the address `http://mimir?selector=x&label_names[]=pre`:
`url.JoinPath` keeps the query of the address, and the request made from the joined URL
has its two parameters. -/
def queryURLLib : URLLib :=
  { JoinPath := fun _ elem => .ok ("http://mimir" ++ elem ++ "?selector=x&label_names[]=pre")
    NewRequest := fun method url =>
      .ok ⟨method, url, [("selector", "x"), ("label_names[]", "pre")], []⟩ }

/-! ## Facts about the collector -/

theorem collectValues_new (client : cardinalityClient) (dimension selector : String)
    (timeout : Nat) (l : List LabelValuesCardinality) :
    (newCardinalityCollector client dimension selector timeout).collectValues l
      = .done (l.map (valueSample dimension)) := by
  induction l with
  | nil => rfl
  | cons lvc rest ih =>
    rw [cardinalityCollector.collectValues, ih]
    rfl

theorem collectLabels_new (client : cardinalityClient) (dimension selector : String)
    (timeout : Nat) (ls : List LabelValuesLabel) :
    (newCardinalityCollector client dimension selector timeout).collectLabels ls
      = .done ((matching dimension ls).flatMap
          (fun lvl => lvl.Cardinality.map (valueSample dimension))) := by
  induction ls with
  | nil => rfl
  | cons lvl rest ih =>
    rw [cardinalityCollector.collectLabels, ih, collectValues_new]
    by_cases h : lvl.LabelName = dimension
    · have hd : (newCardinalityCollector client dimension selector timeout).dimension
          = dimension := rfl
      simp [matching, h, hd]
    · have hd : (newCardinalityCollector client dimension selector timeout).dimension
          = dimension := rfl
      simp [matching, h, hd]

/-- What `Collect` sends after a fetch that returned `response` and no error. -/
theorem collect_of_response (lib : URLLib) (client : cardinalityClient)
    (dimension selector : String) (timeout : Nat) (response : LabelValuesResponse)
    (h : client.LabelValuesCardinality lib [dimension] selector = .done (response, none)) :
    (newCardinalityCollector client dimension selector timeout).Collect lib
      = .done (totalSample dimension response ::
          (matching dimension response.Labels).flatMap
            (fun lvl => lvl.Cardinality.map (valueSample dimension))) := by
  have hc : (newCardinalityCollector client dimension selector timeout).client.LabelValuesCardinality
      lib [(newCardinalityCollector client dimension selector timeout).dimension]
      (newCardinalityCollector client dimension selector timeout).selector
        = .done (response, none) := h
  rw [cardinalityCollector.Collect, hc]
  simp only []
  rw [collectLabels_new]
  rfl

/-- What `Collect` does after a fetch that returned an error. -/
theorem collect_of_error (lib : URLLib) (c : cardinalityCollector)
    (response : LabelValuesResponse) (err : String)
    (h : c.client.LabelValuesCardinality lib [c.dimension] c.selector
      = .done (response, some err)) :
    c.Collect lib = .done [] := by
  rw [cardinalityCollector.Collect, h]

/-- What `Collect` does when the fetch panics. -/
theorem collect_of_panic (lib : URLLib) (c : cardinalityCollector) (err : String)
    (h : c.client.LabelValuesCardinality lib [c.dimension] c.selector = .panic err) :
    c.Collect lib = .panic err := by
  rw [cardinalityCollector.Collect, h]

theorem length_flatMap_values (dimension : String) (ls : List LabelValuesLabel) :
    (ls.flatMap (fun lvl => lvl.Cardinality.map (valueSample dimension))).length
      = (ls.map (fun lvl => lvl.Cardinality.length)).sum := by
  induction ls with
  | nil => rfl
  | cons lvl rest ih => simp [List.flatMap_cons, ih]

theorem matching_matching (dimension : String) (ls : List LabelValuesLabel) :
    matching dimension (matching dimension ls) = matching dimension ls := by
  simp [matching, List.filter_filter]

theorem matching_eq_nil (dimension : String) (ls : List LabelValuesLabel)
    (h : ∀ lvl ∈ ls, lvl.LabelName ≠ dimension) : matching dimension ls = [] := by
  simp only [matching, List.filter_eq_nil_iff]
  intro lvl hl
  simpa using h lvl hl

theorem droppedBits_small (fuel m : Nat) (h : m < 2 ^ 53) : droppedBits fuel m = 0 := by
  cases fuel with
  | zero => rfl
  | succ n =>
    rw [droppedBits, if_pos h]

theorem roundMagnitude_exact (m : Nat) (h : m ≤ 2 ^ 53) : roundMagnitude m = m := by
  rcases Nat.lt_or_eq_of_le h with hlt | heq
  · simp [roundMagnitude, droppedBits_small m m hlt, Nat.mod_one]
  · subst heq
    decide

/-- The conversion `float64(n)` is exact up to `2 ^ 53` in magnitude. -/
theorem float64_exact (n : Int) (h : n.natAbs ≤ 2 ^ 53) : float64 n = n := by
  unfold float64
  rw [roundMagnitude_exact _ h]
  split
  · omega
  · omega

/-! ## The claims about `Collect` -/

/-- C1: after a fetch that returned a response and no error, `Collect` sends exactly
`1 + sum of len(entry.Cardinality)` samples, the sum taken over the entries of
`response.Labels` whose `LabelName` equals the dimension. -/
theorem collect_sample_count (lib : URLLib) (client : cardinalityClient)
    (dimension selector : String) (timeout : Nat) (response : LabelValuesResponse)
    (h : client.LabelValuesCardinality lib [dimension] selector = .done (response, none)) :
    ∃ samples, (newCardinalityCollector client dimension selector timeout).Collect lib
        = .done samples ∧
      samples.length = 1 + ((response.Labels.filter (fun lvl => lvl.LabelName = dimension)).map
        (fun lvl => lvl.Cardinality.length)).sum := by
  refine ⟨_, collect_of_response lib client dimension selector timeout response h, ?_⟩
  rw [List.length_cons, length_flatMap_values, Nat.add_comm]
  rfl

/-- Witness of C1 on the scenario body: three samples. -/
theorem collect_sample_count_witness :
    (plainClient (serving jobBody)).LabelValuesCardinality plainURLLib ["job"] ""
        = .done (jobResponse, none) ∧
      ∃ samples, (newCardinalityCollector (plainClient (serving jobBody)) "job" "" 60).Collect
          plainURLLib = .done samples ∧
        samples.length = 1 + ((jobResponse.Labels.filter (fun lvl => lvl.LabelName = "job")).map
          (fun lvl => lvl.Cardinality.length)).sum :=
  ⟨by decide, collect_sample_count plainURLLib (plainClient (serving jobBody)) "job" "" 60
    jobResponse (by decide)⟩

/-- When the request was built and the round trip fails with `err`, the panic of
`LabelValuesCardinality` goes through `Collect`: it does not return. -/
theorem collect_of_transport_error (lib : URLLib) (c : cardinalityCollector)
    (req : Request) (err : String)
    (hreq : c.client.labelValuesRequest lib [c.dimension] c.selector = .done req)
    (hdo : c.client.Do req = .error err) :
    c.Collect lib = .panic err := by
  apply collect_of_panic
  rw [cardinalityClient.LabelValuesCardinality, hreq]
  simp only []
  rw [hdo]

/-- When the body does not decode, `Collect` returns normally and has sent nothing. -/
theorem collect_of_decode_error (lib : URLLib) (c : cardinalityCollector)
    (req : Request) (body : Body) (err : String)
    (hreq : c.client.labelValuesRequest lib [c.dimension] c.selector = .done req)
    (hdo : c.client.Do req = .ok body)
    (hdec : (decodeLabelValuesResponse body).2 = some err) :
    c.Collect lib = .done [] := by
  apply collect_of_error lib c (decodeLabelValuesResponse body).1 err
  rw [cardinalityClient.LabelValuesCardinality, hreq]
  simp only []
  rw [hdo]
  simp only []
  rw [← hdec]

/-- C2 fails on the code: on a transport where the deadline elapses before a response
arrives, `Collect` does not return with zero samples, it panics with the transport error
(`LabelValuesCardinality` panics on the error of `client.Do` instead of returning it); on a
body that does not decode, `Collect` returns and has sent nothing. -/
theorem collect_panics_on_transport_error :
    (newCardinalityCollector (plainClient failing) "job" "" 60).Collect plainURLLib
        = .panic "context deadline exceeded" ∧
      (newCardinalityCollector (plainClient (serving .malformed)) "job" "" 60).Collect plainURLLib
        = .done [] := by
  constructor <;> decide

/-- C6 fails as stated: for the total `2 ^ 53 + 1` the total-count sample carries
`2 ^ 53`, the nearest `float64`. -/
theorem collect_total_rounded :
    (plainClient (serving hugeTotalBody)).LabelValuesCardinality plainURLLib ["job"] ""
        = .done (⟨9007199254740993, []⟩, none) ∧
      (newCardinalityCollector (plainClient (serving hugeTotalBody)) "job" "" 60).Collect
          plainURLLib
        = .done [⟨NewDesc "grafana_mimir_top_cardinality_total"
            "Total number of time series in Mimir" [] [("dimension", "job")],
            .GaugeValue, 9007199254740992, []⟩] := by
  constructor <;> decide

/-- C6, amended: after a fetch that returned a response and no error, the first sample
`Collect` sends is on the total-count descriptor, no later sample is, and its gauge value is
`float64(response.SeriesCountTotal)`, which is `response.SeriesCountTotal` itself whenever
that is at most `2 ^ 53` in magnitude. -/
theorem collect_total_sample (lib : URLLib) (client : cardinalityClient)
    (dimension selector : String) (timeout : Nat) (response : LabelValuesResponse)
    (h : client.LabelValuesCardinality lib [dimension] selector = .done (response, none)) :
    ∃ total rest, (newCardinalityCollector client dimension selector timeout).Collect lib
        = .done (total :: rest) ∧
      total.desc = (newCardinalityCollector client dimension selector timeout).totalDesc ∧
      total.valueType = .GaugeValue ∧
      total.labelValues = [] ∧
      (∀ m ∈ rest,
        m.desc ≠ (newCardinalityCollector client dimension selector timeout).totalDesc) ∧
      total.value = float64 response.SeriesCountTotal ∧
      (response.SeriesCountTotal.natAbs ≤ 2 ^ 53 →
        total.value = response.SeriesCountTotal) := by
  refine ⟨_, _, collect_of_response lib client dimension selector timeout response h,
    rfl, rfl, rfl, ?_, rfl, ?_⟩
  · intro m hm
    simp only [List.mem_flatMap, List.mem_map] at hm
    obtain ⟨lvl, _, lvc, _, rfl⟩ := hm
    intro hd
    have hn : (valueSample dimension lvc).desc.fqName
        = (newCardinalityCollector client dimension selector timeout).totalDesc.fqName := by
      rw [hd]
    revert hn
    show ("grafana_mimir_top_cardinality" : String) = "grafana_mimir_top_cardinality_total"
      → False
    decide
  · intro hb
    exact float64_exact _ hb

/-- Witness of the amended C6 on the scenario body: the total-count sample carries 100. -/
theorem collect_total_sample_witness :
    ∃ total rest, (newCardinalityCollector (plainClient (serving jobBody)) "job" "" 60).Collect
        plainURLLib = .done (total :: rest) ∧
      total.desc = (newCardinalityCollector (plainClient (serving jobBody)) "job" "" 60).totalDesc ∧
      total.valueType = .GaugeValue ∧
      total.labelValues = [] ∧
      (∀ m ∈ rest,
        m.desc ≠ (newCardinalityCollector (plainClient (serving jobBody)) "job" "" 60).totalDesc) ∧
      total.value = float64 jobResponse.SeriesCountTotal ∧
      (jobResponse.SeriesCountTotal.natAbs ≤ 2 ^ 53 →
        total.value = jobResponse.SeriesCountTotal) :=
  collect_total_sample plainURLLib (plainClient (serving jobBody)) "job" "" 60 jobResponse
    (by decide)

/-- C7: entries whose `LabelName` differs from the dimension contribute nothing: `Collect`
sends the same samples for a response and for that response with the non-matching entries
removed, and when no entry matches it sends the total-count sample alone. -/
theorem collect_skips_other_labels (lib lib1 : URLLib) (client client1 : cardinalityClient)
    (dimension selector selector1 : String) (timeout timeout1 : Nat)
    (response : LabelValuesResponse)
    (h : client.LabelValuesCardinality lib [dimension] selector = .done (response, none))
    (h1 : client1.LabelValuesCardinality lib1 [dimension] selector1
      = .done ({ response with
          Labels := response.Labels.filter (fun lvl => lvl.LabelName = dimension) }, none)) :
    (newCardinalityCollector client dimension selector timeout).Collect lib
        = (newCardinalityCollector client1 dimension selector1 timeout1).Collect lib1 ∧
      ((∀ lvl ∈ response.Labels, lvl.LabelName ≠ dimension) →
        (newCardinalityCollector client dimension selector timeout).Collect lib
          = .done [⟨NewDesc "grafana_mimir_top_cardinality_total"
              "Total number of time series in Mimir" [] [("dimension", dimension)],
              .GaugeValue, float64 response.SeriesCountTotal, []⟩]) := by
  rw [collect_of_response lib client dimension selector timeout response h,
    collect_of_response lib1 client1 dimension selector1 timeout1 _ h1]
  constructor
  · have hm := matching_matching dimension response.Labels
    simp only [matching] at hm ⊢
    rw [hm]
    rfl
  · intro hno
    rw [matching_eq_nil dimension response.Labels hno]
    rfl

/-- Witness of C7: a response with an `instance` entry next to the `job` entry, and the same
response without the `instance` entry. -/
theorem collect_skips_other_labels_witness :
    (newCardinalityCollector (plainClient (serving mixedBody)) "job" "" 60).Collect plainURLLib
      = (newCardinalityCollector (plainClient (serving mixedBodyFiltered)) "job" "up" 5).Collect
          plainURLLib :=
  (collect_skips_other_labels plainURLLib plainURLLib (plainClient (serving mixedBody))
    (plainClient (serving mixedBodyFiltered)) "job" "" "up" 60 5
    ⟨7, [⟨"instance", 0, 0, [⟨"x", 4⟩]⟩, ⟨"job", 0, 0, [⟨"a", 3⟩]⟩]⟩
    (by decide) (by decide)).1

/-- C8 fails as stated: a per-value sample for a count of `2 ^ 53 + 1` carries `2 ^ 53`,
the nearest `float64`. -/
theorem collect_value_rounded :
    (plainClient (serving hugeValueBody)).LabelValuesCardinality plainURLLib ["job"] ""
        = .done (⟨5, [⟨"job", 0, 0, [⟨"a", 9007199254740993⟩]⟩]⟩, none) ∧
      (newCardinalityCollector (plainClient (serving hugeValueBody)) "job" "" 60).Collect
          plainURLLib
        = .done [⟨NewDesc "grafana_mimir_top_cardinality_total"
            "Total number of time series in Mimir" [] [("dimension", "job")],
            .GaugeValue, 5, []⟩,
          ⟨NewDesc "grafana_mimir_top_cardinality" "Cardinality of time series in Mimir"
            ["exported_job"] [("dimension", "job")], .GaugeValue, 9007199254740992, ["a"]⟩] := by
  constructor <;> decide

/-- C8, amended: after a fetch that returned a response and no error, `Collect` sends the
total-count sample and then, in response order, one sample per `(LabelValue, SeriesCount)`
pair of each entry matching the dimension, each on the per-value descriptor with label value
`LabelValue` and gauge value `float64(SeriesCount)`, which is `SeriesCount` itself whenever
that is at most `2 ^ 53` in magnitude; for dimension `job` and the response with total 100
and `job` values `a`: 60, `b`: 40 these are total = 100, a = 60, b = 40. -/
theorem collect_samples (lib : URLLib) (client : cardinalityClient)
    (dimension selector : String) (timeout : Nat) (response : LabelValuesResponse)
    (h : client.LabelValuesCardinality lib [dimension] selector = .done (response, none)) :
    (newCardinalityCollector client dimension selector timeout).Collect lib
        = .done (⟨(newCardinalityCollector client dimension selector timeout).totalDesc,
            .GaugeValue, float64 response.SeriesCountTotal, []⟩ ::
          (response.Labels.filter (fun lvl => lvl.LabelName = dimension)).flatMap
            (fun lvl => lvl.Cardinality.map (fun lvc =>
              ⟨(newCardinalityCollector client dimension selector timeout).desc,
                .GaugeValue, float64 lvc.SeriesCount, [lvc.LabelValue]⟩))) ∧
      (∀ lvc : LabelValuesCardinality, lvc.SeriesCount.natAbs ≤ 2 ^ 53 →
        float64 lvc.SeriesCount = lvc.SeriesCount) ∧
      (dimension = "job" → response = ⟨100, [⟨"job", 2, 100, [⟨"a", 60⟩, ⟨"b", 40⟩]⟩]⟩ →
        (newCardinalityCollector client dimension selector timeout).Collect lib
          = .done [⟨NewDesc "grafana_mimir_top_cardinality_total"
              "Total number of time series in Mimir" [] [("dimension", "job")],
              .GaugeValue, 100, []⟩,
            ⟨NewDesc "grafana_mimir_top_cardinality" "Cardinality of time series in Mimir"
              ["exported_job"] [("dimension", "job")], .GaugeValue, 60, ["a"]⟩,
            ⟨NewDesc "grafana_mimir_top_cardinality" "Cardinality of time series in Mimir"
              ["exported_job"] [("dimension", "job")], .GaugeValue, 40, ["b"]⟩]) := by
  rw [collect_of_response lib client dimension selector timeout response h]
  refine ⟨rfl, fun lvc hb => float64_exact _ hb, ?_⟩
  intro hd hr
  subst hd hr
  decide

/-- Witness of the amended C8: the spec's scenario, served over HTTP and decoded. -/
theorem collect_samples_witness :
    (newCardinalityCollector (plainClient (serving jobBody)) "job" "" 60).Collect plainURLLib
      = .done [⟨NewDesc "grafana_mimir_top_cardinality_total"
          "Total number of time series in Mimir" [] [("dimension", "job")],
          .GaugeValue, 100, []⟩,
        ⟨NewDesc "grafana_mimir_top_cardinality" "Cardinality of time series in Mimir"
          ["exported_job"] [("dimension", "job")], .GaugeValue, 60, ["a"]⟩,
        ⟨NewDesc "grafana_mimir_top_cardinality" "Cardinality of time series in Mimir"
          ["exported_job"] [("dimension", "job")], .GaugeValue, 40, ["b"]⟩] :=
  (collect_samples plainURLLib (plainClient (serving jobBody)) "job" "" 60 jobResponse
    (by decide)).2.2 rfl rfl

/-! ## Facts about maps and `strings.Cut` -/

theorem lookup_store_same (m : StringMap) (key : String) (vs : List String) :
    StringMap.lookup (StringMap.store m key vs) key = vs := by
  induction m with
  | nil => simp [StringMap.store, StringMap.lookup]
  | cons e rest ih =>
    obtain ⟨k, old⟩ := e
    by_cases h : k = key
    · simp [StringMap.store, StringMap.lookup, h]
    · simp [StringMap.store, StringMap.lookup, h, ih]

theorem lookup_store_other (m : StringMap) (key other : String) (vs : List String)
    (h : other ≠ key) :
    StringMap.lookup (StringMap.store m key vs) other = StringMap.lookup m other := by
  induction m with
  | nil =>
    have h2 : ¬ key = other := fun e => h e.symm
    simp [StringMap.store, StringMap.lookup, h2]
  | cons e rest ih =>
    obtain ⟨k, old⟩ := e
    by_cases hk : k = key
    · subst hk
      have h2 : ¬ k = other := fun e => h e.symm
      simp [StringMap.store, StringMap.lookup, h2]
    · by_cases ho : k = other
      · subst ho
        simp [StringMap.store, StringMap.lookup, hk]
      · simp [StringMap.store, StringMap.lookup, hk, ho, ih]

theorem span_no_sep (sep : Char) (a : List Char) (h : sep ∉ a) :
    a.span (fun c => c != sep) = (a, []) := by
  have hall : ∀ c ∈ a, (c != sep) = true := by
    intro c hc
    simp only [bne_iff_ne, ne_eq]
    rintro rfl
    exact h hc
  rw [List.span_eq_take_drop, List.takeWhile_eq_self_iff.mpr hall,
    List.dropWhile_eq_nil_iff.mpr hall]

theorem span_at_sep (sep : Char) (a b : List Char) (h : sep ∉ a) :
    (a ++ sep :: b).span (fun c => c != sep) = (a, sep :: b) := by
  have hall : ∀ c ∈ a, (c != sep) = true := by
    intro c hc
    simp only [bne_iff_ne, ne_eq]
    rintro rfl
    exact h hc
  rw [List.span_eq_take_drop, List.takeWhile_append_of_pos hall,
    List.dropWhile_append_of_pos hall]
  simp

theorem stringsCut_not_found (s : String) (sep : Char) (h : sep ∉ s.toList) :
    stringsCut s sep = (s, "", false) := by
  rw [stringsCut, span_no_sep sep s.toList h]

theorem stringsCut_found (name value : String) (sep : Char) (h : sep ∉ name.toList) :
    stringsCut (name ++ String.singleton sep ++ value) sep = (name, value, true) := by
  have hl : (name ++ String.singleton sep ++ value).toList
      = name.toList ++ sep :: value.toList := by
    simp [String.toList, String.singleton]
  rw [stringsCut, hl, span_at_sep sep _ _ h]
  rfl

theorem stringsCut_found_mem (s : String) (sep : Char) (h : (stringsCut s sep).2.2 = true) :
    sep ∈ s.toList := by
  by_contra hn
  rw [stringsCut_not_found s sep hn] at h
  simp at h

theorem lookup_setEach_other (hdr : Header) (key other : String) (values : List String)
    (h : other ≠ CanonicalMIMEHeaderKey key) :
    StringMap.lookup (setEach hdr key values) other = StringMap.lookup hdr other := by
  induction values generalizing hdr with
  | nil => rfl
  | cons v vs ih =>
    rw [setEach, ih, Header.Set, lookup_store_other _ _ _ _ h]

theorem lookup_setAll_other (hdr : Header) (other : String)
    (entries : List (String × List String))
    (h : ∀ e ∈ entries, CanonicalMIMEHeaderKey e.1 ≠ other) :
    StringMap.lookup (setAll hdr entries) other = StringMap.lookup hdr other := by
  induction entries generalizing hdr with
  | nil => rfl
  | cons e rest ih =>
    obtain ⟨key, values⟩ := e
    rw [setAll, ih _ (fun e he => h e (List.mem_cons_of_mem _ he)),
      lookup_setEach_other]
    exact fun heq => h (key, values) (List.mem_cons_self _ _) heq.symm

theorem exists_first_sep (sep : Char) (l : List Char) (h : sep ∈ l) :
    ∃ a b, l = a ++ sep :: b ∧ sep ∉ a := by
  induction l with
  | nil => simp at h
  | cons c cs ih =>
    by_cases hc : c = sep
    · exact ⟨[], cs, by simp [hc], by simp⟩
    · have hcs : sep ∈ cs := by
        rcases List.mem_cons.mp h with h1 | h1
        · exact absurd h1.symm hc
        · exact h1
      obtain ⟨a, b, hab, hna⟩ := ih hcs
      refine ⟨c :: a, b, by simp [hab], ?_⟩
      intro hin
      rcases List.mem_cons.mp hin with h1 | h1
      · exact hc h1.symm
      · exact hna h1

theorem headerVar_Set_found (h : headerVar) (name value : String) (hn : '=' ∉ name.toList) :
    headerVar.Set h (name ++ "=" ++ value)
      = (some (Header.Add (headerVar.toHeader h) name value), none) := by
  have hcut : stringsCut (name ++ "=" ++ value) '=' = (name, value, true) :=
    stringsCut_found name value '=' hn
  cases h <;> simp only [headerVar.Set, hcut] <;> rfl

/-! ## The claims about headers -/

/-- C10: `headerVar.Set(v)` returns an error exactly when `v` holds no `=`, and then leaves
every stored value as it was; otherwise, with `v` split at its first `=` into `name` and
`value` (which may be empty or hold further `=`), it returns no error, appends `value` after
the values stored under that header name, leaves the values under every other key unchanged,
and a second `Set` of the same name appends after the first. -/
theorem headerVar_Set_spec (h : headerVar) (v : String) :
    ((headerVar.Set h v).2 ≠ none ↔ '=' ∉ v.toList) ∧
      ('=' ∉ v.toList →
        headerVar.toHeader (headerVar.Set h v).1 = headerVar.toHeader h) ∧
      (∀ name value : String, v = name ++ "=" ++ value → '=' ∉ name.toList →
        (headerVar.Set h v).2 = none ∧
        Header.Values (headerVar.toHeader (headerVar.Set h v).1) name
          = Header.Values (headerVar.toHeader h) name ++ [value] ∧
        (∀ key, key ≠ CanonicalMIMEHeaderKey name →
          StringMap.lookup (headerVar.toHeader (headerVar.Set h v).1) key
            = StringMap.lookup (headerVar.toHeader h) key) ∧
        ∀ value2 : String,
          Header.Values (headerVar.toHeader
              (headerVar.Set (headerVar.Set h v).1 (name ++ "=" ++ value2)).1) name
            = Header.Values (headerVar.toHeader h) name ++ [value, value2]) := by
  refine ⟨?_, ?_, ?_⟩
  · constructor
    · intro herr hmem
      have hsplit : ∃ name value : String, v = name ++ "=" ++ value ∧ '=' ∉ name.toList := by
        obtain ⟨a, b, hab, hna⟩ := exists_first_sep '=' v.toList hmem
        refine ⟨String.mk a, String.mk b, ?_, hna⟩
        apply String.ext
        show v.toList = _
        rw [hab]
        simp
      obtain ⟨name, value, hv, hn⟩ := hsplit
      rw [hv, headerVar_Set_found h name value hn] at herr
      exact herr rfl
    · intro hno
      cases h <;> simp [headerVar.Set, stringsCut_not_found v '=' hno]
  · intro hno
    cases h <;> simp [headerVar.Set, stringsCut_not_found v '=' hno, headerVar.toHeader]
  · intro name value hv hn
    subst hv
    rw [headerVar_Set_found h name value hn]
    refine ⟨rfl, ?_, ?_, ?_⟩
    · simp only [headerVar.toHeader, Option.getD_some, Header.Values, Header.Add]
      rw [lookup_store_same]
    · intro key hkey
      simp only [headerVar.toHeader, Option.getD_some, Header.Add]
      rw [lookup_store_other _ _ _ _ hkey]
    · intro value2
      rw [headerVar_Set_found _ name value2 hn]
      simp only [headerVar.toHeader, Option.getD_some, Header.Values, Header.Add]
      rw [lookup_store_same, lookup_store_same]
      simp

/-- Witness of C10: `x-foo=b=c` set on a header that already holds `X-Foo: a`. -/
theorem headerVar_Set_spec_witness :
    (headerVar.Set (some [("X-Foo", ["a"]), ("X-Bar", ["z"])]) "x-foo=b=c").2 = none ∧
      Header.Values (headerVar.toHeader
          (headerVar.Set (some [("X-Foo", ["a"]), ("X-Bar", ["z"])]) "x-foo=b=c").1) "x-foo"
        = Header.Values (headerVar.toHeader (some [("X-Foo", ["a"]), ("X-Bar", ["z"])])) "x-foo"
          ++ ["b=c"] :=
  have hw := (headerVar_Set_spec (some [("X-Foo", ["a"]), ("X-Bar", ["z"])]) "x-foo=b=c").2.2
    "x-foo" "b=c" (by decide) (by decide)
  ⟨hw.1, hw.2.1⟩

/-- Of the values `RoundTrip` applies for one header name, only the last is left on the
request after the loop over them. -/
theorem values_setEach (hdr : Header) (key : String) (values : List String) (last : String) :
    Header.Values (setEach hdr key (values ++ [last])) key = [last] := by
  induction values generalizing hdr with
  | nil => simp [setEach, Header.Values, Header.Set, lookup_store_same]
  | cons v vs ih => rw [List.cons_append, setEach, ih]

/-- C3 fails on the code: with the static headers `X-Foo=a` and `X-Foo=b` configured (both
kept by `headerVar.Set`), the request handed to the next transport carries `X-Foo: b` only;
`RoundTrip` applies each value with `Header.Set`, which replaces the one before. -/
theorem static_header_values_overwritten :
    (headerVar.Set (headerVar.Set none "X-Foo=a").1 "X-Foo=b").1 = some [("X-Foo", ["a", "b"])] ∧
      Header.Values ((NewCardinalityClient
          ⟨"http://mimir", "", "", (headerVar.Set (headerVar.Set none "X-Foo=a").1 "X-Foo=b").1⟩
          failing).client.outbound ⟨"GET", "http://mimir", [], []⟩).Header "X-Foo" = ["b"] := by
  constructor <;> decide

/-- C4 fails as stated: a configured static `Authorization` header replaces the basic-auth
header of a client with credentials, and a request that arrives with a basic-auth header
keeps it when no credentials are configured. -/
theorem basic_auth_not_iff_credentials :
    (hasBasicAuth ((basicAuthRoundTripper.mk failing "user" "secret"
          [("Authorization", ["Bearer token"])]).outbound
        ⟨"GET", "http://mimir", [], []⟩).Header = false ∧
      Header.Values ((basicAuthRoundTripper.mk failing "user" "secret"
          [("Authorization", ["Bearer token"])]).outbound
        ⟨"GET", "http://mimir", [], []⟩).Header "Authorization" = ["Bearer token"]) ∧
    hasBasicAuth ((basicAuthRoundTripper.mk failing "" "" []).outbound
        ⟨"GET", "http://mimir", [], [("Authorization", ["Basic dTpw"])]⟩).Header = true := by
  refine ⟨⟨?_, ?_⟩, ?_⟩ <;> decide

theorem hasBasicAuth_of_values (h : Header) (credentials : String)
    (hv : Header.Values h "Authorization" = ["Basic " ++ credentials]) :
    hasBasicAuth h = true := by
  rw [hasBasicAuth, Header.Get, hv]
  simp [String.toList]

theorem hasBasicAuth_of_no_values (h : Header) (hv : Header.Values h "Authorization" = []) :
    hasBasicAuth h = false := by
  rw [hasBasicAuth, Header.Get, hv]
  decide

theorem outbound_authorization (rt : basicAuthRoundTripper) (req : Request)
    (hs : ∀ e ∈ rt.headers, CanonicalMIMEHeaderKey e.1 ≠ "Authorization") :
    Header.Values (rt.outbound req).Header "Authorization"
      = if rt.user ≠ "" ∨ rt.password ≠ "" then ["Basic " ++ basicAuth rt.user rt.password]
        else Header.Values req.Header "Authorization" := by
  have hcanon : CanonicalMIMEHeaderKey "Authorization" = "Authorization" := by decide
  have hstatic : ∀ hdr : Header,
      StringMap.lookup (if rt.headers.length > 0 then setAll hdr rt.headers else hdr)
        "Authorization" = StringMap.lookup hdr "Authorization" := by
    intro hdr
    split
    · exact lookup_setAll_other hdr "Authorization" rt.headers hs
    · rfl
  by_cases hc : rt.user ≠ "" ∨ rt.password ≠ ""
  · rw [if_pos hc]
    have := hstatic (req.SetBasicAuth rt.user rt.password).Header
    simp only [basicAuthRoundTripper.outbound, if_pos hc, Header.Values, hcanon]
    split
    · rename_i hlen
      rw [if_pos hlen] at this
      rw [this, Request.SetBasicAuth, Header.Set, hcanon, lookup_store_same]
    · rw [Request.SetBasicAuth, Header.Set, hcanon, lookup_store_same]
  · rw [if_neg hc]
    have := hstatic req.Header
    simp only [basicAuthRoundTripper.outbound, if_neg hc, Header.Values, hcanon]
    split
    · rename_i hlen
      rw [if_pos hlen] at this
      exact this
    · rfl

/-- C4, amended: when no static header named `Authorization` is configured and the request
arrives without an `Authorization` header, the request handed to the next transport carries
a basic-auth header exactly when the configured user or password is non-empty: with
credentials its `Authorization` value is `Basic base64(user:password)`, with both empty it
has none. -/
theorem basic_auth_iff_credentials (rt : basicAuthRoundTripper) (req : Request)
    (hs : ∀ e ∈ rt.headers, CanonicalMIMEHeaderKey e.1 ≠ "Authorization")
    (hr : Header.Values req.Header "Authorization" = []) :
    (hasBasicAuth (rt.outbound req).Header = true ↔ (rt.user ≠ "" ∨ rt.password ≠ "")) ∧
      ((rt.user ≠ "" ∨ rt.password ≠ "") →
        Header.Values (rt.outbound req).Header "Authorization"
          = ["Basic " ++ basicAuth rt.user rt.password]) ∧
      (rt.user = "" ∧ rt.password = "" →
        Header.Values (rt.outbound req).Header "Authorization" = []) ∧
      rt.RoundTrip req = rt.next (rt.outbound req) := by
  have hv := outbound_authorization rt req hs
  by_cases hc : rt.user ≠ "" ∨ rt.password ≠ ""
  · rw [if_pos hc] at hv
    refine ⟨⟨fun _ => hc, fun _ => hasBasicAuth_of_values _ _ hv⟩, fun _ => hv, ?_, rfl⟩
    rintro ⟨hu, hp⟩
    rcases hc with h1 | h1
    · exact absurd hu h1
    · exact absurd hp h1
  · rw [if_neg hc, hr] at hv
    refine ⟨⟨fun hb => ?_, fun h1 => absurd h1 hc⟩, fun h1 => absurd h1 hc, fun _ => hv, rfl⟩
    rw [hasBasicAuth_of_no_values _ hv] at hb
    exact absurd hb (by decide)

/-- Witness of the amended C4: a client with a user, a password and one static header. -/
theorem basic_auth_iff_credentials_witness :
    Header.Values ((basicAuthRoundTripper.mk failing "user" "secret"
        [("X-Scope-Orgid", ["tenant"])]).outbound
      ⟨"GET", "http://mimir", [], []⟩).Header "Authorization"
      = ["Basic " ++ basicAuth "user" "secret"] :=
  (basic_auth_iff_credentials (basicAuthRoundTripper.mk failing "user" "secret"
      [("X-Scope-Orgid", ["tenant"])]) ⟨"GET", "http://mimir", [], []⟩
    (by decide) (by decide)).2.1 (Or.inl (by decide))

/-! ## Facts about decoding -/

theorem firstError_eq_none (e1 e2 : Option String) :
    firstError e1 e2 = none ↔ e1 = none ∧ e2 = none := by
  cases e1 <;> simp [firstError]

theorem decodeInt_ok (cur : Int) (x : JSON) :
    (decodeInt cur x).2 = none ↔ fitsInt x = true := by
  cases x with
  | int n =>
    by_cases hn : -(2 : Int) ^ 63 ≤ n ∧ n < (2 : Int) ^ 63
    · rw [decodeInt, if_pos hn]
      simp only [fitsInt, decide_eq_true_eq]
      exact ⟨fun _ => hn, fun _ => trivial⟩
    · rw [decodeInt, if_neg hn]
      simp only [fitsInt, decide_eq_true_eq]
      exact ⟨fun h => absurd h (by simp), fun h => absurd h hn⟩
  | null => simp [decodeInt, fitsInt]
  | bool b => simp [decodeInt, fitsInt]
  | nonInt => simp [decodeInt, fitsInt]
  | str s => simp [decodeInt, fitsInt]
  | arr items => simp [decodeInt, fitsInt]
  | obj members => simp [decodeInt, fitsInt]

theorem decodeString_ok (cur : String) (x : JSON) :
    (decodeString cur x).2 = none ↔ fitsString x = true := by
  cases x <;> simp [decodeString, fitsString]

theorem decodeMembers_ok {α : Type} (field : α → String → JSON → α × Option String)
    (ok : String → JSON → Bool)
    (hf : ∀ cur name v, (field cur name v).2 = none ↔ ok name v = true)
    (acc : α × Option String) (members : List (String × JSON)) :
    (decodeMembers field acc members).2 = none
      ↔ acc.2 = none ∧ members.all (fun m => ok (foldName m.1) m.2) = true := by
  induction members generalizing acc with
  | nil => simp [decodeMembers]
  | cons m rest ih =>
    obtain ⟨k, v⟩ := m
    rw [decodeMembers, ih, List.all_cons, Bool.and_eq_true]
    simp only [firstError_eq_none, hf]
    exact and_assoc

theorem decodeStruct_ok {α : Type} (field : α → String → JSON → α × Option String)
    (ok : String → JSON → Bool)
    (hf : ∀ cur name v, (field cur name v).2 = none ↔ ok name v = true)
    (cur : α) (x : JSON) :
    (decodeStruct field cur x).2 = none ↔ objectFits ok x = true := by
  cases x with
  | obj members =>
    rw [decodeStruct, decodeMembers_ok field ok hf, objectFits]
    simp
  | null => simp [decodeStruct, objectFits]
  | bool b => simp [decodeStruct, objectFits]
  | int n => simp [decodeStruct, objectFits]
  | nonInt => simp [decodeStruct, objectFits]
  | str s => simp [decodeStruct, objectFits]
  | arr items => simp [decodeStruct, objectFits]

theorem decodeItems_ok {α : Type} (zero : α) (dec : α → JSON → α × Option String)
    (ok : JSON → Bool) (hd : ∀ cur j, (dec cur j).2 = none ↔ ok j = true)
    (cur : List α) (items : List JSON) :
    (decodeItems zero dec cur items).2 = none ↔ items.all ok = true := by
  induction items generalizing cur with
  | nil => simp [decodeItems]
  | cons j js ih =>
    rw [decodeItems, List.all_cons, Bool.and_eq_true]
    simp only [firstError_eq_none, hd, ih]

theorem decodeSlice_ok {α : Type} (zero : α) (dec : α → JSON → α × Option String)
    (ok : JSON → Bool) (hd : ∀ cur j, (dec cur j).2 = none ↔ ok j = true)
    (cur : Slice α) (x : JSON) :
    (decodeSlice zero dec cur x).2 = none ↔ arrayFits ok x = true := by
  cases x with
  | arr items =>
    cases items with
    | nil => simp [decodeSlice, arrayFits]
    | cons j js =>
      rw [decodeSlice, arrayFits]
      exact decodeItems_ok zero dec ok hd _ _
  | null => simp [decodeSlice, arrayFits]
  | bool b => simp [decodeSlice, arrayFits]
  | int n => simp [decodeSlice, arrayFits]
  | nonInt => simp [decodeSlice, arrayFits]
  | str s => simp [decodeSlice, arrayFits]
  | obj members => simp [decodeSlice, arrayFits]

theorem cardinality_field_ok (cur : LabelValuesCardinality) (name : String) (v : JSON) :
    (LabelValuesCardinality.field cur name v).2 = none ↔ cardinalityMemberFits name v = true := by
  unfold LabelValuesCardinality.field cardinalityMemberFits
  split
  · exact decodeString_ok _ _
  · split
    · exact decodeInt_ok _ _
    · simp

theorem label_field_ok (cur : StoredLabel) (name : String) (v : JSON) :
    (StoredLabel.field cur name v).2 = none ↔ labelMemberFits name v = true := by
  unfold StoredLabel.field labelMemberFits
  split
  · exact decodeString_ok _ _
  · split
    · exact decodeInt_ok _ _
    · split
      · exact decodeInt_ok _ _
      · split
        · exact decodeSlice_ok _ _ _
            (decodeStruct_ok _ _ cardinality_field_ok) _ _
        · simp

theorem response_field_ok (cur : StoredResponse) (name : String) (v : JSON) :
    (StoredResponse.field cur name v).2 = none ↔ responseMemberFits name v = true := by
  unfold StoredResponse.field responseMemberFits
  split
  · exact decodeInt_ok _ _
  · split
    · exact decodeSlice_ok _ _ _ (decodeStruct_ok _ _ label_field_ok) _ _
    · simp

theorem decodeMembers_invariant {α β : Type} (field : α → String → JSON → α × Option String)
    (proj : α → β) (acc : α × Option String) (members : List (String × JSON))
    (hkeep : ∀ m ∈ members, ∀ cur, proj (field cur (foldName m.1) m.2).1 = proj cur) :
    proj (decodeMembers field acc members).1 = proj acc.1 := by
  induction members generalizing acc with
  | nil => rfl
  | cons m rest ih =>
    obtain ⟨k, v⟩ := m
    rw [decodeMembers, ih _ (fun m hm => hkeep m (List.mem_cons_of_mem _ hm))]
    exact hkeep (k, v) (List.mem_cons_self _ _) acc.1

/-- With the request built and the round trip delivering `body`, `LabelValuesCardinality`
returns what the decoder produced. -/
theorem labelValuesCardinality_of_body (lib : URLLib) (c : cardinalityClient)
    (labels : List String) (selector : String) (req : Request) (body : Body)
    (hreq : c.labelValuesRequest lib labels selector = .done req)
    (hdo : c.Do req = .ok body) :
    c.LabelValuesCardinality lib labels selector = .done (decodeLabelValuesResponse body) := by
  rw [cardinalityClient.LabelValuesCardinality, hreq]
  simp only []
  rw [hdo]

/-- A member that comes again is decoded over what the earlier one left, the elements cut
off in between included. -/
theorem repeated_member_decodes_over_backing_array :
    decodeLabelValuesResponse repeatedMemberBody
      = (⟨0, [⟨"", 0, 0, [⟨"a", 0⟩, ⟨"b", 0⟩]⟩]⟩, none) := by
  decide

/-! ## The claim about decoding -/

/-- C5 fails as stated: a JSON object without `series_count_total`, the empty object, and
the empty object followed by text that is not JSON are all decoded without error, the
missing fields left at zero. -/
theorem missing_members_decode_silently :
    hasMember "series_count_total" (.obj [("labels", .arr [])]) = false ∧
      (plainClient (serving noTotalBody)).LabelValuesCardinality plainURLLib ["job"] ""
        = .done (⟨0, []⟩, none) ∧
      (plainClient (serving emptyObjectBody)).LabelValuesCardinality plainURLLib ["job"] ""
        = .done (⟨0, []⟩, none) ∧
      (plainClient (serving trailingTextBody)).LabelValuesCardinality plainURLLib ["job"] ""
        = .done (⟨0, []⟩, none) := by
  refine ⟨?_, ?_, ?_, ?_⟩ <;> decide

/-- C5, amended: `LabelValuesCardinality` returns a decode error exactly when no JSON value
can be read from the start of the body, or the value read there is not an object (or
`null`), or some member that names a field of the schema (up to case), at any depth, holds
a value of another JSON type than the field: a non-string under `label_name` or
`label_value`, anything but an integer fitting an `int` under the counts, a non-array under
`labels` or `cardinality`, an item of those arrays that is not an object (`null` passes
everywhere). Text after the first JSON value, members of other names and missing members
are no error: without a member named `series_count_total` the total is left at 0, without
one named `labels` the list is left empty. -/
theorem labelValuesCardinality_decode_errors (lib : URLLib) (c : cardinalityClient)
    (labels : List String) (selector : String) (req : Request) (body : Body)
    (hreq : c.labelValuesRequest lib labels selector = .done req)
    (hdo : c.Do req = .ok body) :
    ∃ result err, c.LabelValuesCardinality lib labels selector = .done (result, err) ∧
      (err = none ↔ ∃ v rest, body = .json v rest ∧ fitsLabelValuesResponse v = true) ∧
      (∀ members rest, body = .json (.obj members) rest →
        (∀ m ∈ members, foldName m.1 ≠ "series_count_total") → result.SeriesCountTotal = 0) ∧
      (∀ members rest, body = .json (.obj members) rest →
        (∀ m ∈ members, foldName m.1 ≠ "labels") → result.Labels = []) := by
  refine ⟨(decodeLabelValuesResponse body).1, (decodeLabelValuesResponse body).2,
    labelValuesCardinality_of_body lib c labels selector req body hreq hdo, ?_, ?_, ?_⟩
  · cases body with
    | malformed => simp [decodeLabelValuesResponse]
    | json v rest =>
      simp only [decodeLabelValuesResponse, fitsLabelValuesResponse]
      rw [decodeStruct_ok _ _ response_field_ok]
      constructor
      · intro h
        exact ⟨v, rest, rfl, h⟩
      · rintro ⟨v1, rest1, heq, h⟩
        cases heq
        exact h
  · rintro members rest rfl hno
    have hinv := decodeMembers_invariant StoredResponse.field
      (fun r => r.SeriesCountTotal) (⟨0, ⟨[], []⟩⟩, none) members (by
        intro m hm cur
        rw [StoredResponse.field, if_neg (hno m hm)]
        split <;> rfl)
    simpa [decodeLabelValuesResponse, decodeStruct, StoredResponse.value] using hinv
  · rintro members rest rfl hno
    have hinv := decodeMembers_invariant StoredResponse.field
      (fun r => r.Labels.elems) (⟨0, ⟨[], []⟩⟩, none) members (by
        intro m hm cur
        rw [StoredResponse.field]
        split
        · rfl
        · rw [if_neg (hno m hm)])
    have hinv2 : (decodeMembers StoredResponse.field
        (⟨0, ⟨[], []⟩⟩, none) members).1.Labels.elems = [] := hinv
    simp only [decodeLabelValuesResponse, decodeStruct, StoredResponse.value]
    rw [hinv2]
    rfl

/-- Witness of the amended C5: a body whose innermost `series_count` is a string is
refused. -/
theorem labelValuesCardinality_decode_errors_witness :
    ∃ result err,
      (plainClient (serving nestedMismatchBody)).LabelValuesCardinality plainURLLib ["job"] ""
        = .done (result, err) ∧ err ≠ none :=
  have ⟨result, err, hres, hiff, _, _⟩ := labelValuesCardinality_decode_errors plainURLLib
    (plainClient (serving nestedMismatchBody)) ["job"] ""
    ⟨"GET", "http://mimir/prometheus/api/v1/cardinality/label_values",
      [("label_names[]", "job")], []⟩
    nestedMismatchBody (by decide) rfl
  ⟨result, err, hres, fun hnone => by
    obtain ⟨v, rest, hb, hfit⟩ := hiff.mp hnone
    cases hb
    revert hfit
    decide⟩

/-! ## Facts about `url.Values` -/

theorem store_keys (m : StringMap) (key : String) (vs : List String) :
    (StringMap.store m key vs).map Prod.fst
      = if key ∈ m.map Prod.fst then m.map Prod.fst else m.map Prod.fst ++ [key] := by
  induction m with
  | nil => simp [StringMap.store]
  | cons e rest ih =>
    obtain ⟨k, old⟩ := e
    by_cases hk : k = key
    · subst hk
      simp [StringMap.store]
    · have hk2 : ¬ key = k := fun e => hk e.symm
      simp only [StringMap.store, if_neg hk, List.map_cons, ih, List.mem_cons, hk2, false_or]
      split <;> simp

theorem store_nodup (m : StringMap) (key : String) (vs : List String)
    (h : (m.map Prod.fst).Nodup) : ((StringMap.store m key vs).map Prod.fst).Nodup := by
  rw [store_keys]
  split
  · exact h
  · rename_i hk
    rw [List.nodup_append]
    refine ⟨h, List.nodup_singleton _, ?_⟩
    intro a ha hb
    rw [List.mem_singleton] at hb
    exact hk (hb ▸ ha)

theorem lookup_absent (m : StringMap) (key : String) (h : key ∉ m.map Prod.fst) :
    StringMap.lookup m key = [] := by
  induction m with
  | nil => rfl
  | cons e rest ih =>
    obtain ⟨k, vs⟩ := e
    simp only [List.map_cons, List.mem_cons, not_or] at h
    have hk : ¬ k = key := fun e => h.1 e.symm
    rw [StringMap.lookup, if_neg hk, ih h.2]

theorem lookup_add (q : Values) (key value other : String) :
    StringMap.lookup (Values.Add q key value) other
      = if other = key then StringMap.lookup q other ++ [value]
        else StringMap.lookup q other := by
  by_cases h : other = key
  · subst h
    rw [if_pos rfl, Values.Add, lookup_store_same]
  · rw [if_neg h, Values.Add, lookup_store_other _ _ _ _ h]

theorem lookup_foldl_pairs (raw : List (String × String)) (q : Values) (key : String) :
    StringMap.lookup (raw.foldl (fun q p => Values.Add q p.1 p.2) q) key
      = StringMap.lookup q key ++ (raw.filter (fun p => p.1 = key)).map Prod.snd := by
  induction raw generalizing q with
  | nil => simp
  | cons p rest ih =>
    obtain ⟨k, v⟩ := p
    rw [List.foldl_cons, ih, lookup_add]
    by_cases h : k = key
    · subst h
      simp
    · have h2 : ¬ key = k := fun e => h e.symm
      simp [h, h2]

theorem nodup_foldl_pairs (raw : List (String × String)) (q : Values)
    (h : (q.map Prod.fst).Nodup) :
    ((raw.foldl (fun q p => Values.Add q p.1 p.2) q).map Prod.fst).Nodup := by
  induction raw generalizing q with
  | nil => exact h
  | cons p rest ih =>
    rw [List.foldl_cons]
    exact ih _ (store_nodup _ _ _ h)

theorem lookup_foldl_values (labels : List String) (q : Values) (name key : String) :
    StringMap.lookup (labels.foldl (fun q v => Values.Add q name v) q) key
      = if key = name then StringMap.lookup q key ++ labels else StringMap.lookup q key := by
  induction labels generalizing q with
  | nil => simp
  | cons v rest ih =>
    rw [List.foldl_cons, ih, lookup_add]
    by_cases h : key = name <;> simp [h]

theorem nodup_foldl_values (labels : List String) (q : Values) (name : String)
    (h : (q.map Prod.fst).Nodup) :
    ((labels.foldl (fun q v => Values.Add q name v) q).map Prod.fst).Nodup := by
  induction labels generalizing q with
  | nil => exact h
  | cons v rest ih =>
    rw [List.foldl_cons]
    exact ih _ (store_nodup _ _ _ h)

theorem filter_flatMap_keys (m : StringMap) (key : String) (ks : List String)
    (h : ks.Nodup) :
    (((ks.flatMap (fun k => (StringMap.lookup m k).map (fun x => (k, x)))).filter
        (fun p => p.1 = key)).map Prod.snd)
      = if key ∈ ks then StringMap.lookup m key else [] := by
  induction ks with
  | nil => simp
  | cons k rest ih =>
    rw [List.nodup_cons] at h
    rw [List.flatMap_cons, List.filter_append, List.map_append, ih h.2]
    by_cases hk : k = key
    · subst hk
      have hfil : ((StringMap.lookup m k).map (fun x => (k, x))).filter (fun p => p.1 = k)
          = (StringMap.lookup m k).map (fun x => (k, x)) := by
        rw [List.filter_eq_self]
        intro p hp
        rw [List.mem_map] at hp
        obtain ⟨x, _, rfl⟩ := hp
        simp
      rw [hfil, if_neg h.1]
      simp [Function.comp_def]
    · have hfil : ((StringMap.lookup m k).map (fun x => (k, x))).filter (fun p => p.1 = key)
          = [] := by
        rw [List.filter_eq_nil_iff]
        intro p hp
        rw [List.mem_map] at hp
        obtain ⟨x, _, rfl⟩ := hp
        simpa using hk
      have hk2 : ¬ key = k := fun e => hk e.symm
      rw [hfil]
      simp [hk2]

/-- The parameters named `key` in the encoded query are the values stored under `key`, in
stored order. -/
theorem encode_values (q : Values) (key : String) (h : (q.map Prod.fst).Nodup) :
    ((Values.Encode q).filter (fun p => p.1 = key)).map Prod.snd = StringMap.lookup q key := by
  have hperm := List.perm_insertionSort (fun a b : String => a ≤ b) (q.map Prod.fst)
  rw [Values.Encode, filter_flatMap_keys q key _ (hperm.nodup_iff.mpr h)]
  split
  · rfl
  · rename_i hk
    rw [lookup_absent q key (fun hin => hk (hperm.mem_iff.mpr hin))]

theorem add_nodup (q : Values) (key value : String) (h : (q.map Prod.fst).Nodup) :
    ((Values.Add q key value).map Prod.fst).Nodup :=
  store_nodup _ _ _ h

theorem nodup_query (raw : List (String × String)) :
    ((URLQuery raw).map Prod.fst).Nodup :=
  nodup_foldl_pairs raw [] List.nodup_nil

theorem lookup_query_absent (raw : List (String × String)) (key : String)
    (h : ∀ p ∈ raw, p.1 ≠ key) : StringMap.lookup (URLQuery raw) key = [] := by
  rw [URLQuery, lookup_foldl_pairs]
  have hf : raw.filter (fun p => p.1 = key) = [] := by
    rw [List.filter_eq_nil_iff]
    intro p hp
    simpa using h p hp
  rw [hf]
  rfl

/-! ## The claim about the request query -/

/-- C9 fails as stated: for the address `http://mimir?selector=x&label_names[]=pre` the
query of the address is kept, so the request of `LabelValuesCardinality` for the one
dimension `job` and the empty selector has the `label_names[]` parameters `pre`, `job` and
the `selector` parameter `x`, and the request of `LabelNamesCardinality` for the selector
`up` has the two `selector` parameters `x`, `up`. -/
theorem address_query_parameters_kept :
    (∃ req, (NewCardinalityClient ⟨"http://mimir?selector=x&label_names[]=pre", "", "", none⟩
          failing).labelValuesRequest queryURLLib ["job"] "" = .done req ∧
      (req.RawQuery.filter (fun p => p.1 = "label_names[]")).map Prod.snd = ["pre", "job"] ∧
      (req.RawQuery.filter (fun p => p.1 = "selector")).map Prod.snd = ["x"]) ∧
    (∃ req, (NewCardinalityClient ⟨"http://mimir?selector=x&label_names[]=pre", "", "", none⟩
          failing).labelNamesRequest queryURLLib "up" = .done req ∧
      (req.RawQuery.filter (fun p => p.1 = "selector")).map Prod.snd = ["x", "up"]) := by
  refine ⟨⟨⟨"GET",
      "http://mimir/prometheus/api/v1/cardinality/label_values?selector=x&label_names[]=pre",
      Values.Encode [("selector", ["x"]), ("label_names[]", ["pre", "job"])], []⟩,
      rfl, ?_, ?_⟩,
    ⟨⟨"GET",
      "http://mimir/prometheus/api/v1/cardinality/label_names?selector=x&label_names[]=pre",
      Values.Encode [("selector", ["x", "up"]), ("label_names[]", ["pre"])], []⟩,
      rfl, ?_⟩⟩
  · rw [encode_values _ _ (by decide)]
    decide
  · rw [encode_values _ _ (by decide)]
    decide
  · rw [encode_values _ _ (by decide)]
    decide

/-- C9, amended: when the address is a URL that carries no `label_names[]` or `selector`
parameter of its own, the query of the request built by `LabelValuesCardinality` has one `label_names[]`
parameter per dimension name, in the given order, and a `selector` parameter exactly when
the selector is non-empty; the query of the request built by `LabelNamesCardinality` has
exactly one `selector` parameter, also for the empty selector. -/
theorem request_query_parameters (lib : URLLib) (c : cardinalityClient)
    (labels : List String) (selector url url1 : String) (base base1 : Request)
    (hjoin : lib.JoinPath c.address "/prometheus/api/v1/cardinality/label_values" = .ok url)
    (hnew : lib.NewRequest "GET" url = .ok base)
    (hbase : ∀ p ∈ base.RawQuery, p.1 ≠ "label_names[]" ∧ p.1 ≠ "selector")
    (hjoin1 : lib.JoinPath c.address "/prometheus/api/v1/cardinality/label_names" = .ok url1)
    (hnew1 : lib.NewRequest "GET" url1 = .ok base1)
    (hbase1 : ∀ p ∈ base1.RawQuery, p.1 ≠ "selector") :
    (∃ req, c.labelValuesRequest lib labels selector = .done req ∧
      (req.RawQuery.filter (fun p => p.1 = "label_names[]")).map Prod.snd = labels ∧
      (req.RawQuery.filter (fun p => p.1 = "selector")).map Prod.snd
        = if selector = "" then [] else [selector]) ∧
    (∃ req, c.labelNamesRequest lib selector = .done req ∧
      (req.RawQuery.filter (fun p => p.1 = "selector")).map Prod.snd = [selector]) := by
  constructor
  · refine ⟨_, by rw [cardinalityClient.labelValuesRequest, hjoin]; simp only []; rw [hnew],
      ?_, ?_⟩
    · by_cases hs : selector = ""
      · rw [if_neg (not_not.mpr hs),
          encode_values _ _ (nodup_foldl_values _ _ _ (nodup_query _)),
          lookup_foldl_values, if_pos rfl,
          lookup_query_absent _ _ (fun p hp => (hbase p hp).1)]
        rfl
      · rw [if_pos hs,
          encode_values _ _ (add_nodup _ _ _ (nodup_foldl_values _ _ _ (nodup_query _))),
          lookup_add, if_neg (by decide), lookup_foldl_values, if_pos rfl,
          lookup_query_absent _ _ (fun p hp => (hbase p hp).1)]
        rfl
    · by_cases hs : selector = ""
      · rw [if_neg (not_not.mpr hs), if_pos hs,
          encode_values _ _ (nodup_foldl_values _ _ _ (nodup_query _)),
          lookup_foldl_values, if_neg (by decide),
          lookup_query_absent _ _ (fun p hp => (hbase p hp).2)]
      · rw [if_pos hs, if_neg hs,
          encode_values _ _ (add_nodup _ _ _ (nodup_foldl_values _ _ _ (nodup_query _))),
          lookup_add, if_pos rfl, lookup_foldl_values, if_neg (by decide),
          lookup_query_absent _ _ (fun p hp => (hbase p hp).2)]
        rfl
  · refine ⟨_, by rw [cardinalityClient.labelNamesRequest, hjoin1]; simp only []; rw [hnew1],
      ?_⟩
    rw [encode_values _ _ (add_nodup _ _ _ (nodup_query _)), lookup_add, if_pos rfl,
      lookup_query_absent _ _ hbase1]
    rfl

/-- Witness of the amended C9: two dimension names and a selector on a plain address. -/
theorem request_query_parameters_witness :
    (∃ req, (plainClient failing).labelValuesRequest plainURLLib ["job", "instance"] "up"
        = .done req ∧
      (req.RawQuery.filter (fun p => p.1 = "label_names[]")).map Prod.snd
        = ["job", "instance"] ∧
      (req.RawQuery.filter (fun p => p.1 = "selector")).map Prod.snd
        = if "up" = "" then [] else ["up"]) ∧
    (∃ req, (plainClient failing).labelNamesRequest plainURLLib "up" = .done req ∧
      (req.RawQuery.filter (fun p => p.1 = "selector")).map Prod.snd = ["up"]) :=
  request_query_parameters plainURLLib (plainClient failing) ["job", "instance"] "up"
    "http://mimir/prometheus/api/v1/cardinality/label_values"
    "http://mimir/prometheus/api/v1/cardinality/label_names"
    ⟨"GET", "http://mimir/prometheus/api/v1/cardinality/label_values", [], []⟩
    ⟨"GET", "http://mimir/prometheus/api/v1/cardinality/label_names", [], []⟩
    rfl rfl (by decide) rfl rfl (by decide)

end MimirCardinality
